import Mathlib

/-!
Verification of the test-auto-repair pipeline (BluebirdhubKilo, `test-debug-agent`).

Python strings are modelled as `List Char`; numeric confidence values (Python
floats over small decimal constants) are modelled as exact rationals `ℚ`.
Each definition is a shallow embedding of the correspondingly named Python
function; the source module is named in the doc comment.
-/

namespace PyStr

/-- Python's default whitespace set used by `str.strip` / `str.rstrip`. -/
def pySpace (c : Char) : Bool :=
  c = ' ' || c = '\t' || c = '\n' || c = '\r' || c = '\x0b' || c = '\x0c'

/-- `str.rstrip()` with no argument: drop trailing whitespace. -/
def rstrip (s : List Char) : List Char :=
  (s.reverse.dropWhile pySpace).reverse

/-- `str.lstrip()` with no argument: drop leading whitespace. -/
def lstrip (s : List Char) : List Char :=
  s.dropWhile pySpace

/-- `str.strip()` with no argument. -/
def strip (s : List Char) : List Char :=
  lstrip (rstrip s)

/-- `str.index(ch)` for a single character; callers guard on membership. -/
def indexOfChar (c : Char) (s : List Char) : Nat :=
  s.findIdx (· = c)

/-- `str.index(sub)` for a substring; callers guard on containment. -/
def indexOfSeq (pat : List Char) : List Char → Nat
  | [] => 0
  | c :: cs => if pat.isPrefixOf (c :: cs) then 0 else indexOfSeq pat cs + 1

/-- Python's `sub in s` substring test. -/
def containsSeq (pat : List Char) : List Char → Bool
  | [] => pat.isEmpty
  | c :: cs => pat.isPrefixOf (c :: cs) || containsSeq pat cs

/-- Remove the first occurrence of `c` (no change when absent). -/
def removeFirstChar (c : Char) : List Char → List Char
  | [] => []
  | x :: xs => if x = c then xs else x :: removeFirstChar c xs

/-- Remove the last occurrence of `c`, i.e. the `rfind` + slice idiom
`s[:i] + s[i+1:]` guarded by `i != -1`. -/
def removeLastChar (c : Char) (s : List Char) : List Char :=
  (removeFirstChar c s.reverse).reverse

/-- Iterate `removeLastChar` `k` times (the `for _ in range(excess)` loop). -/
def removeLastIter (c : Char) : Nat → List Char → List Char
  | 0, s => s
  | k + 1, s => removeLastIter c k (removeLastChar c s)

/-- Column value of `s.rfind(c) + 1` (Python `rfind` returns -1 when absent). -/
def rfindPlusOne (c : Char) (s : List Char) : Nat :=
  match s.reverse.findIdx? (· = c) with
  | none => 0
  | some j => s.length - j

/-- `str.replace(pat, repl)`: replace all non-overlapping occurrences,
scanning left to right.  (Callers only use non-empty `pat`.) -/
def replaceAll (pat repl : List Char) : List Char → List Char
  | [] => []
  | c :: cs =>
    if pat ≠ [] ∧ pat.isPrefixOf (c :: cs) then
      repl ++ replaceAll pat repl (cs.drop (pat.length - 1))
    else
      c :: replaceAll pat repl cs
termination_by s => s.length
decreasing_by
  · simp only [List.length_drop, List.length_cons]; omega
  · simp only [List.length_cons]; omega

/-- `content.split('\n')`: always returns at least one (possibly empty) line. -/
def splitLines : List Char → List (List Char)
  | [] => [[]]
  | c :: cs =>
    match splitLines cs with
    | [] => [[]]
    | l :: ls => if c = '\n' then [] :: l :: ls else (c :: l) :: ls

/-- `'\n'.join(lines)`. -/
def joinLines : List (List Char) → List Char
  | [] => []
  | [l] => l
  | l :: l' :: ls => l ++ '\n' :: joinLines (l' :: ls)

theorem splitLines_ne_nil (s : List Char) : splitLines s ≠ [] := by
  cases s with
  | nil => simp [splitLines]
  | cons c cs =>
    simp only [splitLines]
    cases h : splitLines cs with
    | nil => simp
    | cons l ls =>
      by_cases hc : c = '\n' <;> simp [hc]

theorem no_newline_mem_splitLines (s : List Char) :
    ∀ l ∈ splitLines s, '\n' ∉ l := by
  induction s with
  | nil =>
    intro l hl
    simp only [splitLines, List.mem_singleton] at hl
    subst hl; simp
  | cons c cs ih =>
    intro l hl
    simp only [splitLines] at hl
    rcases hsp : splitLines cs with _ | ⟨l0, ls0⟩
    · exact absurd hsp (splitLines_ne_nil cs)
    · rw [hsp] at hl
      dsimp only at hl
      by_cases hc : c = '\n'
      · rw [if_pos hc] at hl
        rcases List.mem_cons.1 hl with rfl | hl
        · simp
        · exact ih l (hsp ▸ hl)
      · rw [if_neg hc] at hl
        rcases List.mem_cons.1 hl with rfl | hl
        · intro hm
          rcases List.mem_cons.1 hm with h1 | h1
          · exact hc h1.symm
          · exact ih l0 (hsp ▸ List.mem_cons_self _ _) h1
        · exact ih l (hsp ▸ List.mem_cons_of_mem _ hl)

theorem splitLines_append_no_newline (l s : List Char) (hl : '\n' ∉ l) :
    splitLines (l ++ s) = (l ++ (splitLines s).headI) :: (splitLines s).tail := by
  induction l with
  | nil =>
    obtain ⟨a, as, h⟩ : ∃ a as, splitLines s = a :: as := by
      rcases hsp : splitLines s with _ | ⟨a, as⟩
      · exact absurd hsp (splitLines_ne_nil s)
      · exact ⟨a, as, rfl⟩
    simp [h]
  | cons c cs ih =>
    have hc : c ≠ '\n' := fun h => hl (h ▸ List.mem_cons_self c cs)
    have hcs : '\n' ∉ cs := fun h => hl (List.mem_cons_of_mem c h)
    rw [List.cons_append]
    simp only [splitLines]
    rw [ih hcs]
    simp [hc]

theorem splitLines_joinLines (ls : List (List Char)) (hne : ls ≠ [])
    (hnl : ∀ l ∈ ls, '\n' ∉ l) : splitLines (joinLines ls) = ls := by
  induction ls with
  | nil => exact absurd rfl hne
  | cons l rest ih =>
    cases rest with
    | nil =>
      have hl : '\n' ∉ l := hnl l (List.mem_cons_self _ _)
      have h := splitLines_append_no_newline l [] hl
      simpa [joinLines, splitLines] using h
    | cons l' rest' =>
      have hl : '\n' ∉ l := hnl l (List.mem_cons_self _ _)
      have hrest : ∀ m ∈ l' :: rest', '\n' ∉ m := fun m hm =>
        hnl m (List.mem_cons_of_mem _ hm)
      have ihr := ih (by simp) hrest
      have h := splitLines_append_no_newline l ('\n' :: joinLines (l' :: rest')) hl
      have hsplit : splitLines ('\n' :: joinLines (l' :: rest')) =
          [] :: splitLines (joinLines (l' :: rest')) := by
        simp only [splitLines]
        rcases hsp : splitLines (joinLines (l' :: rest')) with _ | ⟨a, as⟩
        · exact absurd hsp (splitLines_ne_nil _)
        · simp
      rw [ihr] at hsplit
      rw [joinLines, h, hsplit]
      simp

end PyStr

/-! ## `ast_analyzer.py` -/

/-- `ast_analyzer.SyntaxError`: a diagnostic produced by the parser adapter. -/
structure ASTSyntaxError where
  line : Nat
  column : Nat
  message : String
  severity : String
  error_code : String
  source : String
deriving DecidableEq

/-- `ast_analyzer.ASTNode` (the `children` field is always `[]` as built by
`analyze_file` and is omitted). -/
structure ASTNode where
  nodeType : String
  startPos : Nat
  endPos : Nat
  line : Nat
  column : Nat
  raw : String
deriving DecidableEq

/-- `ast_analyzer.ASTAnalysis`. `parse_time` is wall-clock time, kept as an
uninterpreted rational. -/
structure ASTAnalysis where
  is_valid : Bool
  syntax_errors : List ASTSyntaxError
  ast_nodes : List ASTNode
  parse_time : ℚ
  file_type : String
deriving DecidableEq

/-- One raw error record of the external Node.js parse result. -/
structure RawParseError where
  line : Nat
  column : Nat
  message : String
  severity : String
  errorCode : Option String
  source : String
deriving DecidableEq

/-- The dictionary returned by `JSASTParser.parse` (the external service's
JSON, or the synthetic failure dictionaries built in `parse`). -/
structure ParseResult where
  success : Bool
  error : Option String
  isValid : Bool
  syntaxErrors : List RawParseError
  astNodes : List ASTNode
  fileType : String
deriving DecidableEq

/-- Outcome of the external `node` invocation inside `JSASTParser.parse`:
normal JSON output, non-zero exit code, `subprocess.TimeoutExpired`, or any
other exception. -/
inductive ParseOutcome where
  | ok (r : ParseResult)
  | nonzeroExit (stderr : String)
  | timeoutExpired
  | exc (msg : String)
deriving DecidableEq

namespace AstAnalyzer

/-- `JSASTParser.parse`: maps every failure of the external call to a
synthetic failure dictionary instead of raising (ast_analyzer.py lines
161-225). -/
def parse (o : ParseOutcome) : ParseResult :=
  match o with
  | .ok r => r
  | .nonzeroExit e => ⟨false, some e, false, [], [], "unknown"⟩
  | .timeoutExpired => ⟨false, some "Parse timeout", false, [], [], "unknown"⟩
  | .exc m => ⟨false, some m, false, [], [], "unknown"⟩

/-- `ASTAnalyzer.analyze_file` for a supported file type, as a function of the
external parse outcome (ast_analyzer.py lines 271-320).  `t` is the measured
parse time. -/
def analyze_file (o : ParseOutcome) (t : ℚ) : ASTAnalysis :=
  let pr := parse o
  if pr.success then
    { is_valid := pr.isValid
      syntax_errors := pr.syntaxErrors.map (fun e =>
        ⟨e.line, e.column, e.message, e.severity, e.errorCode.getD "UNKNOWN", e.source⟩)
      ast_nodes := pr.astNodes
      parse_time := t
      file_type := pr.fileType }
  else
    { is_valid := false
      syntax_errors :=
        [⟨1, 1, pr.error.getD "Unknown parse error", "error", "PARSE_FAILED", "ast"⟩]
      ast_nodes := []
      parse_time := t
      file_type := pr.fileType }

/-- The function-call patterns scanned by `detect_specific_errors`. -/
def callPatterns : List (List Char) :=
  ["expect(".toList, "render(".toList, "waitFor(".toList, "screen.getBy".toList]

/-- The per-line body of `ASTAnalyzer.detect_specific_errors`
(ast_analyzer.py lines 328-375). -/
def detectLineErrors (line : List Char) (line_num : Nat) : List ASTSyntaxError :=
  let e1 :=
    if callPatterns.any (fun p => PyStr.containsSeq p line) then
      let open_parens := line.count '('
      let close_parens := line.count ')'
      if close_parens < open_parens then
        [⟨line_num, line.length - (PyStr.lstrip line).length + 1,
          "Unmatched opening parenthesis in function call", "error",
          "UNMATCHED_PAREN", "ast"⟩]
      else if open_parens < close_parens then
        [⟨line_num, PyStr.rfindPlusOne ')' line,
          "Unmatched closing parenthesis in function call", "error",
          "UNMATCHED_PAREN", "ast"⟩]
      else []
    else []
  let e2 :=
    if PyStr.containsSeq ("setSystemTime(".toList) line ∧
        ¬ ((");".toList).isSuffixOf (PyStr.strip line)) then
      if line.contains ';' ∧
          ¬ ((line.drop (PyStr.indexOfChar ';' line)).contains ')') then
        [⟨line_num, PyStr.indexOfSeq ("setSystemTime".toList) line + 1,
          "Incomplete setSystemTime call - missing closing parenthesis",
          "error", "INCOMPLETE_CALL", "ast"⟩]
      else []
    else []
  let e3 :=
    if PyStr.containsSeq ("setTimeout(()".toList) line ∧ line.contains ';' ∧
        ¬ ((line.drop (PyStr.indexOfChar ';' line)).contains ')') then
      [⟨line_num, PyStr.indexOfSeq ("setTimeout".toList) line + 1,
        "Malformed setTimeout pattern", "error", "MALFORMED_TIMEOUT", "ast"⟩]
    else []
  e1 ++ e2 ++ e3

/-- `ASTAnalyzer.detect_specific_errors` (the `analysis` parameter is unused
by the Python body and omitted): scan every line of the content. -/
def detect_specific_errors (content : List Char) : List ASTSyntaxError :=
  ((PyStr.splitLines content).enum.map
    (fun p => detectLineErrors p.2 (p.1 + 1))).flatten

/-- `ASTAnalyzer.analyze_with_content`: run `analyze_file` on the temp file,
then extend its diagnostics with `detect_specific_errors` on the content. -/
def analyze_with_content (o : ParseOutcome) (t : ℚ) (content : List Char) :
    ASTAnalysis :=
  let a := analyze_file o t
  { a with syntax_errors := a.syntax_errors ++ detect_specific_errors content }

end AstAnalyzer

/-! ## `syntax_fix_generator.py` -/

/-- `syntax_fix_generator.SyntaxFix`: a proposed single-line edit. -/
structure SyntaxFix where
  line : Nat
  column : Nat
  old_text : List Char
  new_text : List Char
  description : String
  confidence : ℚ
  fix_type : String
deriving DecidableEq

/-- `syntax_fix_generator.FixResult`. -/
structure FixResult where
  success : Bool
  fixed_content : List Char
  fixes_applied : List SyntaxFix
  errors_remaining : List ASTSyntaxError
  confidence : ℚ
deriving DecidableEq

/-- One entry of `SyntaxFixGenerator._initialize_fix_patterns`. -/
structure PatternInfo where
  description : String
  confidence : ℚ
  fix_type : String
deriving DecidableEq

namespace SynFix

def unmatchedParenPattern : PatternInfo :=
  ⟨"Fix unmatched parentheses", 9/10, "parentheses"⟩

def incompleteCallPattern : PatternInfo :=
  ⟨"Complete incomplete function calls", 95/100, "call_completion"⟩

def malformedTimeoutPattern : PatternInfo :=
  ⟨"Fix malformed setTimeout patterns", 85/100, "async_pattern"⟩

def missingSemicolonPattern : PatternInfo :=
  ⟨"Add missing semicolons", 8/10, "semicolon"⟩

def unmatchedBracketPattern : PatternInfo :=
  ⟨"Fix unmatched brackets", 9/10, "bracket"⟩

/-- `SyntaxFixGenerator._initialize_fix_patterns` as a lookup table. -/
def fix_patterns (key : String) : Option PatternInfo :=
  if key = "UNMATCHED_PAREN" then some unmatchedParenPattern
  else if key = "INCOMPLETE_CALL" then some incompleteCallPattern
  else if key = "MALFORMED_TIMEOUT" then some malformedTimeoutPattern
  else if key = "MISSING_SEMICOLON" then some missingSemicolonPattern
  else if key = "UNMATCHED_BRACKET" then some unmatchedBracketPattern
  else none

/-- `SyntaxFixGenerator._fix_unmatched_parentheses`
(syntax_fix_generator.py lines 113-163); the unused `error` argument is
omitted. -/
def fix_unmatched_parentheses (line : List Char) (line_num : Nat) :
    Option SyntaxFix :=
  let pattern_info := unmatchedParenPattern
  let open_parens := line.count '('
  let close_parens := line.count ')'
  if close_parens < open_parens then
    let missing_parens := open_parens - close_parens
    let new_line :=
      if ([';']).isSuffixOf (PyStr.rstrip line) then
        (PyStr.rstrip line).dropLast ++ List.replicate missing_parens ')' ++ [';']
      else
        PyStr.rstrip line ++ List.replicate missing_parens ')'
    some { line := line_num
           column := (PyStr.rstrip line).length + 1
           old_text := PyStr.rstrip line
           new_text := new_line
           description := pattern_info.description ++ " - add " ++
             toString missing_parens ++ " closing paren(s)"
           confidence := pattern_info.confidence
           fix_type := pattern_info.fix_type }
  else if open_parens < close_parens then
    let excess_parens := close_parens - open_parens
    let new_line := PyStr.removeLastIter ')' excess_parens line
    some { line := line_num
           column := 1
           old_text := PyStr.rstrip line
           new_text := PyStr.rstrip new_line
           description := pattern_info.description ++ " - remove " ++
             toString excess_parens ++ " extra paren(s)"
           confidence := pattern_info.confidence * (8/10)
           fix_type := pattern_info.fix_type }
  else none

/-- The `function_patterns` list of `_fix_incomplete_call`. -/
def functionPatterns : List (List Char) :=
  ["expect(".toList, "render(".toList, "waitFor(".toList, "screen.getBy".toList]

/-- The general-pattern loop at the end of `_fix_incomplete_call`
(syntax_fix_generator.py lines 188-207). -/
def incompleteCallLoop (line : List Char) (line_num : Nat) :
    List (List Char) → Option SyntaxFix
  | [] => none
  | p :: ps =>
    if PyStr.containsSeq p line then
      let startIdx := PyStr.indexOfSeq p line
      let open_parens := (line.drop startIdx).count '('
      let close_parens := (line.drop startIdx).count ')'
      if close_parens < open_parens then
        let missing_parens := open_parens - close_parens
        some { line := line_num
               column := (PyStr.rstrip line).length + 1
               old_text := PyStr.rstrip line
               new_text := PyStr.rstrip line ++ List.replicate missing_parens ')'
               description := incompleteCallPattern.description ++
                 " - complete " ++ String.mk p ++ " call"
               confidence := incompleteCallPattern.confidence * (9/10)
               fix_type := incompleteCallPattern.fix_type }
      else incompleteCallLoop line line_num ps
    else incompleteCallLoop line line_num ps

/-- `SyntaxFixGenerator._fix_incomplete_call`
(syntax_fix_generator.py lines 165-209). -/
def fix_incomplete_call (line : List Char) (line_num : Nat) : Option SyntaxFix :=
  if PyStr.containsSeq ("setSystemTime(".toList) line ∧
      (line.contains ';' ∧ ¬ ((");".toList).isSuffixOf (PyStr.strip line))) then
    let semicolon_pos := PyStr.indexOfChar ';' line
    let new_line := line.take semicolon_pos ++ [')'] ++ line.drop semicolon_pos
    some { line := line_num
           column := semicolon_pos + 1
           old_text := PyStr.rstrip line
           new_text := PyStr.rstrip new_line
           description := incompleteCallPattern.description ++
             " - complete setSystemTime call"
           confidence := incompleteCallPattern.confidence
           fix_type := incompleteCallPattern.fix_type }
  else incompleteCallLoop line line_num functionPatterns

/-- `str.split(sep)` for a multi-character separator (used by
`_fix_malformed_timeout`); callers only use non-empty `sep`. -/
def splitOnSeq (sep : List Char) : List Char → List (List Char)
  | [] => [[]]
  | c :: cs =>
    if sep ≠ [] ∧ sep.isPrefixOf (c :: cs) then
      [] :: splitOnSeq sep (cs.drop (sep.length - 1))
    else
      match splitOnSeq sep cs with
      | [] => [[c]]
      | l :: ls => (c :: l) :: ls
termination_by s => s.length
decreasing_by
  · simp only [List.length_drop, List.length_cons]; omega
  · simp only [List.length_cons]; omega

/-- `SyntaxFixGenerator._fix_malformed_timeout`
(syntax_fix_generator.py lines 211-247). -/
def fix_malformed_timeout (line : List Char) (line_num : Nat) : Option SyntaxFix :=
  if PyStr.containsSeq ("setTimeout((".toList) line ∧ line.contains ';' then
    let new_line :=
      PyStr.replaceAll ("setTimeout((;".toList) ("setTimeout(()".toList) line
    some { line := line_num
           column := PyStr.indexOfSeq ("setTimeout(".toList) line + 1
           old_text := PyStr.rstrip line
           new_text := PyStr.rstrip new_line
           description := malformedTimeoutPattern.description ++
             " - fix arrow function syntax"
           confidence := malformedTimeoutPattern.confidence
           fix_type := malformedTimeoutPattern.fix_type }
  else if PyStr.containsSeq ("setTimeout(() =>".toList) line ∧
      PyStr.containsSeq ("=>".toList) line then
    let parts := splitOnSeq ("=>".toList) line
    if 2 < parts.length then
      let new_line := parts.headI ++ ("=>".toList) ++ (parts.drop 2).flatten
      some { line := line_num
             column := PyStr.indexOfSeq ("setTimeout(".toList) line + 1
             old_text := PyStr.rstrip line
             new_text := PyStr.rstrip new_line
             description := malformedTimeoutPattern.description ++
               " - remove duplicate arrow function"
             confidence := malformedTimeoutPattern.confidence * (8/10)
             fix_type := malformedTimeoutPattern.fix_type }
    else none
  else none

/-- The `statement_patterns` list of `_fix_general_parse_error`. -/
def statementPatterns : List (List Char) :=
  ["const ".toList, "let ".toList, "var ".toList, "return ".toList,
   "throw ".toList, "import ".toList]

/-- `SyntaxFixGenerator._fix_general_parse_error`
(syntax_fix_generator.py lines 249-270). -/
def fix_general_parse_error (line : List Char) (line_num : Nat) :
    Option SyntaxFix :=
  let stripped := PyStr.strip line
  let endsInCloser : Bool :=
    match stripped.getLast? with
    | some ch => ch ∈ [';', '\x7b', '\x7d', ')', ']']
    | none => false
  if ¬ endsInCloser ∧ stripped ≠ [] then
    if statementPatterns.any (fun p => p.isPrefixOf stripped) then
      some { line := line_num
             column := (PyStr.rstrip line).length + 1
             old_text := PyStr.rstrip line
             new_text := PyStr.rstrip line ++ [';']
             description := "Add missing semicolon"
             confidence := 7/10
             fix_type := "semicolon" }
    else none
  else none

/-- `SyntaxFixGenerator._generate_fix_for_error`
(syntax_fix_generator.py lines 92-111).  A `line` value of 0 selects the
last line, mirroring Python's negative indexing `lines[-1]`. -/
def generate_fix_for_error (error : ASTSyntaxError) (lines : List (List Char)) :
    Option SyntaxFix :=
  let line_num := error.line
  if lines.length < line_num then none
  else
    let line :=
      if line_num = 0 then lines.getLastD [] else lines.getD (line_num - 1) []
    if error.error_code = "UNMATCHED_PAREN" then
      fix_unmatched_parentheses line line_num
    else if error.error_code = "INCOMPLETE_CALL" then
      fix_incomplete_call line line_num
    else if error.error_code = "MALFORMED_TIMEOUT" then
      fix_malformed_timeout line line_num
    else if error.error_code = "PARSE_ERROR" ∨ error.error_code = "PARSE_FAILED" then
      fix_general_parse_error line line_num
    else none

/-- Stable insertion preserving earlier elements among `ge`-ties: `x` is
placed after every element `y` with `ge y x`. -/
def insertDescBy (ge : α → α → Bool) (x : α) : List α → List α
  | [] => [x]
  | y :: ys => if ge y x then y :: insertDescBy ge x ys else x :: y :: ys

/-- Python's stable `list.sort(key=..., reverse=True)`: a stable sort into
descending key order. -/
def stableSortDescBy (ge : α → α → Bool) (l : List α) : List α :=
  l.foldl (fun acc x => insertDescBy ge x acc) []

/-- The `(line, column)` descending sort key used by `generate_fixes`. -/
def geLineCol (a b : SyntaxFix) : Bool :=
  decide (b.line < a.line ∨ (a.line = b.line ∧ b.column ≤ a.column))

/-- `SyntaxFixGenerator.generate_fixes` (syntax_fix_generator.py lines
75-90): one candidate per `source == 'ast'` diagnostic, sorted by
`(line, column)` descending (stable). -/
def generate_fixes (analysis : ASTAnalysis) (content : List Char) :
    List SyntaxFix :=
  let lines := PyStr.splitLines content
  let fixes := (analysis.syntax_errors.filter (fun e => e.source = "ast")).filterMap
    (fun e => generate_fix_for_error e lines)
  stableSortDescBy geLineCol fixes

/-- The application loop of `SyntaxFixGenerator.apply_fixes`
(syntax_fix_generator.py lines 286-296): state is (current lines, applied
fixes).  A `line` value of 0 writes the last line (Python `lines[-1]`). -/
def applyLoop : List SyntaxFix → List (List Char) × List SyntaxFix →
    List (List Char) × List SyntaxFix
  | [], st => st
  | f :: fs, (lines, applied) =>
    if f.line ≤ lines.length then
      applyLoop fs
        (lines.set (if f.line = 0 then lines.length - 1 else f.line - 1) f.new_text,
         applied ++ [f])
    else
      applyLoop fs (lines, applied)

/-- `SyntaxFixGenerator.apply_fixes` (syntax_fix_generator.py lines 272-312). -/
def apply_fixes (content : List Char) (fixes : List SyntaxFix) : FixResult :=
  if fixes = [] then
    { success := true, fixed_content := content, fixes_applied := []
      errors_remaining := [], confidence := 1 }
  else
    let st := applyLoop fixes (PyStr.splitLines content, [])
    let fixed_content := PyStr.joinLines st.1
    let overall_confidence : ℚ :=
      if st.2 ≠ [] then (st.2.map (·.confidence)).sum / st.2.length else 1
    { success := decide (0 < st.2.length)
      fixed_content := fixed_content
      fixes_applied := st.2
      errors_remaining := []
      confidence := overall_confidence }

/-- `SyntaxFixGenerator.fix_content`. -/
def fix_content (analysis : ASTAnalysis) (content : List Char) : FixResult :=
  apply_fixes content (generate_fixes analysis content)

end SynFix

/-! ## `type_fix_generator.py` (the missing-member handler) -/

/-- `typescript_analyzer.TypeDiagnostic`.  The message is kept as a character
list because the handler matches it with a regular expression. -/
structure TypeDiagnostic where
  line : Nat
  column : Nat
  message : List Char
  severity : String
  code : Nat
  category : String
  file : String
deriving DecidableEq

/-- `type_fix_generator.TypeFix`. -/
structure TypeFix where
  line : Nat
  column : Nat
  fix_type : String
  old_text : List Char
  new_text : List Char
  description : String
  confidence : ℚ
  type_info : Option String
deriving DecidableEq

namespace TypeFixGen

/-- Attempt of the regex `Property '([^']+)' does not exist` at the start of
`s`: the literal prefix, then a non-empty greedy run of non-quote characters,
then the literal `' does not exist`. -/
def matchPropertyAt (s : List Char) : Option (List Char) :=
  if ("Property '".toList).isPrefixOf s then
    let rest := s.drop ("Property '".toList).length
    let grp := rest.takeWhile (· ≠ '\'')
    if grp ≠ [] ∧ ("' does not exist".toList).isPrefixOf (rest.drop grp.length) then
      some grp
    else none
  else none

/-- `re.search(r"Property '([^']+)' does not exist", message)`: first match,
scanning left to right. -/
def searchPropertyNotExist : List Char → Option (List Char)
  | [] => none
  | c :: cs =>
    match matchPropertyAt (c :: cs) with
    | some g => some g
    | none => searchPropertyNotExist cs

/-- The `valid_queries` list of `_fix_property_not_exist`. -/
def validScreenQueries : List (List Char) :=
  ["getByText".toList, "getByRole".toList, "getByLabelText".toList,
   "getByPlaceholderText".toList, "getByAltText".toList, "getByTitle".toList,
   "getByTestId".toList, "getByDisplayValue".toList]

/-- `TypeFixGenerator._fix_property_not_exist`
(type_fix_generator.py lines 155-197). -/
def fix_property_not_exist (diagnostic : TypeDiagnostic) (line : List Char) :
    Option TypeFix :=
  match searchPropertyNotExist diagnostic.message with
  | none => none
  | some property_name =>
    if PyStr.containsSeq ("mockReturnValue".toList) line ∨
        PyStr.containsSeq ("mockImplementation".toList) line then
      if ¬ PyStr.containsSeq ("as any".toList) line then
        let new_line :=
          PyStr.replaceAll property_name (property_name ++ " as any".toList) line
        some { line := diagnostic.line
               column := diagnostic.column
               fix_type := "type_assertion"
               old_text := PyStr.strip line
               new_text := PyStr.strip new_line
               description := "Add type assertion for mock property '" ++
                 String.mk property_name ++ "'"
               confidence := 8/10
               type_info := some "any" }
      else none
    else if PyStr.containsSeq ("screen.".toList) line ∧
        ("getBy".toList).isPrefixOf property_name then
      if property_name ∈ validScreenQueries then
        some { line := diagnostic.line
               column := diagnostic.column
               fix_type := "import_fix"
               old_text := PyStr.strip line
               new_text := PyStr.strip line
               description := "Valid screen query '" ++ String.mk property_name ++
                 "' - ensure proper imports"
               confidence := 9/10
               type_info := some "screen_query" }
      else none
    else none

end TypeFixGen

/-! ## `ml_context_engine.py` (candidate ranking) -/

/-- `ml_context_engine.ContextualFix`. -/
structure ContextualFix where
  line : Nat
  column : Nat
  fix_type : String
  old_text : String
  new_text : String
  description : String
  confidence : ℚ
  context_match : ℚ
  similar_patterns : List String
  reasoning : String
deriving DecidableEq

namespace MLContext

/-- The sort key of `suggest_contextual_fixes`:
`x.confidence * 0.7 + x.context_match * 0.3`. -/
def combinedScore (f : ContextualFix) : ℚ :=
  f.confidence * (7/10) + f.context_match * (3/10)

/-- Key comparison for the descending stable sort. -/
def geScore (a b : ContextualFix) : Bool :=
  decide (combinedScore b ≤ combinedScore a)

/-- `MLContextEngine.suggest_contextual_fixes`
(ml_context_engine.py lines 256-295).  The loop body (lines 261-287) turns
each available fix into a `ContextualFix` from the engine's state and the
fixed code context; that per-candidate construction is the parameter
`build`, applied in discovery order, after which the list is sorted by
`list.sort(key=..., reverse=True)` — Python's stable sort. -/
def suggest_contextual_fixes (build : α → ContextualFix)
    (available_fixes : List α) : List ContextualFix :=
  SynFix.stableSortDescBy geScore (available_fixes.map build)

end MLContext

/-! ## `next_gen_auto_fixer.py` -/

/-- `enhanced_auto_fixer.FixResult` (the enhanced engine's output, consumed
by the orchestrator). -/
structure EnhancedResult where
  success : Bool
  changes_made : List String
  issues_found : List String
  file_content : List Char
  confidence : ℚ
deriving DecidableEq

/-- `next_gen_auto_fixer.NextGenFixResult`. -/
structure NextGenFixResult where
  success : Bool
  file_path : String
  original_content : List Char
  fixed_content : List Char
  total_fixes : Nat
  confidence_score : ℚ
  processing_time : ℚ
  fixes_by_engine : List (String × List String)
  ast_analysis : Option ASTAnalysis
  manual_review_needed : Bool
  errors_remaining : List String
deriving DecidableEq

/-- `next_gen_auto_fixer.BatchProcessingResult`. -/
structure BatchProcessingResult where
  total_files : Nat
  files_processed : Nat
  files_fixed : Nat
  success_rate : ℚ
  average_confidence : ℚ
  average_processing_time : ℚ
  total_fixes_applied : Nat
  manual_review_files : List String
  detailed_results : List NextGenFixResult
deriving DecidableEq

namespace NextGen

/-- `NextGenAutoFixer._calculate_confidence`
(next_gen_auto_fixer.py lines 211-238). -/
def calculate_confidence (original fixed : List Char) (fixes : List String)
    (ast_analysis : Option ASTAnalysis) (manual_review : Bool)
    (errors : List String) : ℚ :=
  if fixes = [] then (if original = fixed then 1 else 0)
  else
    let base1 : ℚ := 9/10
    let base2 := if manual_review then base1 - 2/10 else base1
    let base3 := if errors ≠ [] then base2 - (1/10) * errors.length else base2
    let base4 :=
      match ast_analysis with
      | some a => if a.is_valid then base3 + 1/10 else base3
      | none => base3
    let base5 :=
      if 10 < fixes.length then base4 - 1/10
      else if 5 < fixes.length then base4 - 5/100
      else base4
    max 0 (min 1 base5)

/-- The Phase-3 refinement loop of `process_file`
(next_gen_auto_fixer.py lines 139-164): runs for `iteration` in
`range(1, max_iterations)`; an analyzer exception (`none`) or an empty
refined fix list breaks out. -/
def refineLoop (analyze : List Char → Option ASTAnalysis) :
    Nat → Nat → List Char → List String → List (String × List String) →
    List Char × List String × List (String × List String)
  | 0, _, current, all_fixes, fbe => (current, all_fixes, fbe)
  | n + 1, iter, current, all_fixes, fbe =>
    match analyze current with
    | none => (current, all_fixes, fbe)
    | some a =>
      let refined := SynFix.generate_fixes a current
      if refined = [] then (current, all_fixes, fbe)
      else
        let r := SynFix.apply_fixes current refined
        if r.success then
          let descs := r.fixes_applied.map (·.description)
          refineLoop analyze n (iter + 1) r.fixed_content (all_fixes ++ descs)
            (fbe ++ [("ast_iteration_" ++ toString iter, descs)])
        else
          refineLoop analyze n (iter + 1) current all_fixes fbe

/-- `NextGenAutoFixer.process_file` (next_gen_auto_fixer.py lines 72-196) as
a function of the two engine oracles: `analyze` models
`ASTAnalyzer.analyze_with_content` (`none` = the phase raised) and
`enhanced` models `EnhancedAutoFixer.fix_file` (`none` = the phase raised).
Both AST analysis and enhanced fixes are enabled, `max_iterations = 3`, as
configured in `__init__`; the dry-run write-back is I/O and does not affect
the returned record. -/
def process_file (analyze : List Char → Option ASTAnalysis)
    (enhanced : List Char → Option EnhancedResult)
    (file_path : String) (original_content : List Char) : NextGenFixResult :=
  let p1 :
      List Char × List String × List (String × List String) ×
        Option ASTAnalysis × List String :=
    match analyze original_content with
    | none => (original_content, [], [], none, ["AST analysis error"])
    | some a =>
      let ast_fixes := SynFix.generate_fixes a original_content
      if ast_fixes ≠ [] then
        let r := SynFix.apply_fixes original_content ast_fixes
        if r.success then
          let descs := r.fixes_applied.map (·.description)
          (r.fixed_content, descs, [("ast", descs)], some a, [])
        else (original_content, [], [], some a, [])
      else (original_content, [], [], some a, [])
  let current1 := p1.1
  let fixes1 := p1.2.1
  let fbe1 := p1.2.2.1
  let astA := p1.2.2.2.1
  let errs1 := p1.2.2.2.2
  let p2 :
      List Char × List String × List (String × List String) × Bool ×
        List String :=
    match enhanced current1 with
    | none => (current1, fixes1, fbe1, false, errs1 ++ ["Enhanced fixes error"])
    | some er =>
      if er.success ∧ er.changes_made ≠ [] then
        let manual := er.issues_found ≠ []
        let errs2 := if er.issues_found ≠ [] then errs1 ++ er.issues_found else errs1
        (er.file_content, fixes1 ++ er.changes_made,
         fbe1 ++ [("enhanced", er.changes_made)], manual, errs2)
      else (current1, fixes1, fbe1, false, errs1)
  let current2 := p2.1
  let fixes2 := p2.2.1
  let fbe2 := p2.2.2.1
  let manual := p2.2.2.2.1
  let errs2 := p2.2.2.2.2
  let p3 :=
    if 0 < fixes2.length then refineLoop analyze 2 1 current2 fixes2 fbe2
    else (current2, fixes2, fbe2)
  let current3 := p3.1
  let fixes3 := p3.2.1
  let fbe3 := p3.2.2
  let conf := calculate_confidence original_content current3 fixes3 astA manual errs2
  { success := decide (0 < fixes3.length)
    file_path := file_path
    original_content := original_content
    fixed_content := current3
    total_fixes := fixes3.length
    confidence_score := conf
    processing_time := 0
    fixes_by_engine := fbe3
    ast_analysis := astA
    manual_review_needed := manual
    errors_remaining := errs2 }

/-- `files_fixed` accumulation of `process_directory`
(next_gen_auto_fixer.py lines 260-271). -/
def filesFixed (results : List NextGenFixResult) : Nat :=
  (results.filter (·.success)).length

/-- `total_confidence` accumulation of `process_directory`: confidences are
summed only over successful results. -/
def totalConfidence (results : List NextGenFixResult) : ℚ :=
  ((results.filter (·.success)).map (·.confidence_score)).sum

/-- `total_fixes` accumulation of `process_directory`. -/
def totalFixesApplied (results : List NextGenFixResult) : Nat :=
  ((results.filter (·.success)).map (·.total_fixes)).sum

/-- `NextGenAutoFixer.process_directory` statistics
(next_gen_auto_fixer.py lines 253-287), as a function of the per-file
results (one per discovered test file, in discovery order) and the measured
elapsed wall time. -/
def process_directory (results : List NextGenFixResult) (elapsed : ℚ) :
    BatchProcessingResult :=
  { total_files := results.length
    files_processed := results.length
    files_fixed := filesFixed results
    success_rate :=
      if results.length ≠ 0 then (filesFixed results : ℚ) / results.length else 0
    average_confidence :=
      if results.length ≠ 0 then totalConfidence results / results.length else 0
    average_processing_time :=
      if results.length ≠ 0 then elapsed / results.length else 0
    total_fixes_applied := totalFixesApplied results
    manual_review_files :=
      (results.filter (fun r => r.success ∧ r.manual_review_needed)).map
        (·.file_path)
    detailed_results := results }

end NextGen

/-! ## Claim theorems -/

/-- **C5.** Whenever the external parser call fails (crash / non-zero exit /
timeout), `analyze_file` returns — it is a total function, so it never
raises — a result whose diagnostic list is exactly one synthetic
`PARSE_FAILED` diagnostic, with `is_valid = false`. -/
theorem parse_failure_single_synthetic_diagnostic (o : ParseOutcome) (t : ℚ)
    (h : ∀ r, o ≠ ParseOutcome.ok r) :
    (AstAnalyzer.analyze_file o t).is_valid = false ∧
    ((AstAnalyzer.analyze_file o t).syntax_errors.map (·.error_code)) =
      ["PARSE_FAILED"] ∧
    ((AstAnalyzer.analyze_file o t).syntax_errors.map (·.source)) = ["ast"] := by
  cases o with
  | ok r => exact absurd rfl (h r)
  | nonzeroExit e => exact ⟨rfl, rfl, rfl⟩
  | timeoutExpired => exact ⟨rfl, rfl, rfl⟩
  | exc m => exact ⟨rfl, rfl, rfl⟩

/-- Witness for C5 at the timeout outcome. -/
theorem parse_failure_single_synthetic_diagnostic_witness :
    (∀ r, ParseOutcome.timeoutExpired ≠ ParseOutcome.ok r) ∧
    ((AstAnalyzer.analyze_file ParseOutcome.timeoutExpired 0).is_valid = false ∧
     ((AstAnalyzer.analyze_file ParseOutcome.timeoutExpired 0).syntax_errors.map
        (·.error_code)) = ["PARSE_FAILED"] ∧
     ((AstAnalyzer.analyze_file ParseOutcome.timeoutExpired 0).syntax_errors.map
        (·.source)) = ["ast"]) :=
  ⟨fun _ h => ParseOutcome.noConfusion h,
   parse_failure_single_synthetic_diagnostic ParseOutcome.timeoutExpired 0
     (fun _ h => ParseOutcome.noConfusion h)⟩

/-- The exact Scenario A input line of the specification:
`setSystemTime(new Date(2023, 0, 1);`. -/
def scenarioALine : List Char := "setSystemTime(new Date(2023, 0, 1);".toList

theorem scenarioA_splitLines : PyStr.splitLines scenarioALine = [scenarioALine] := by
  decide

theorem scenarioA_general_none (n : Nat) :
    SynFix.fix_general_parse_error scenarioALine n = none := by
  unfold SynFix.fix_general_parse_error
  simp only []
  split
  · rename_i hcond; exact absurd hcond (by decide)
  · rfl

theorem scenarioA_detect_nil :
    AstAnalyzer.detect_specific_errors scenarioALine = [] := by decide

theorem scenarioA_incomplete_none (n : Nat) :
    SynFix.fix_incomplete_call scenarioALine n = none := by
  unfold SynFix.fix_incomplete_call
  rw [if_neg (by decide)]
  simp +decide [SynFix.incompleteCallLoop, SynFix.functionPatterns]

/-- **C1.** On the exact Scenario A line `setSystemTime(new Date(2023, 0, 1);`
the pipeline emits no edit at all: the detector produces no diagnostic for it
(the guard `not line.strip().endswith(');')` is false because the line ends
in `);`), the incomplete-call fixer declines it for the same reason, and the
whole generate-and-apply pass returns the text unchanged with zero applied
fixes — for any external parse outcome whose own diagnostics are
typescript-sourced or the synthetic `PARSE_FAILED`.  This contradicts the
code's own comment (`syntax_fix_generator.py` line 171) and Scenario A. -/
theorem scenarioA_no_fix_general (o : ParseOutcome) (t : ℚ)
    (h : ∀ e ∈ (AstAnalyzer.analyze_file o t).syntax_errors,
        e.source ≠ "ast" ∨ e.error_code = "PARSE_FAILED") :
    AstAnalyzer.detect_specific_errors scenarioALine = [] ∧
    (∀ n, SynFix.fix_incomplete_call scenarioALine n = none) ∧
    SynFix.generate_fixes (AstAnalyzer.analyze_with_content o t scenarioALine)
      scenarioALine = [] ∧
    (SynFix.fix_content (AstAnalyzer.analyze_with_content o t scenarioALine)
      scenarioALine).fixed_content = scenarioALine ∧
    (SynFix.fix_content (AstAnalyzer.analyze_with_content o t scenarioALine)
      scenarioALine).fixes_applied = [] := by
  have herrs : (AstAnalyzer.analyze_with_content o t scenarioALine).syntax_errors
      = (AstAnalyzer.analyze_file o t).syntax_errors := by
    unfold AstAnalyzer.analyze_with_content
    dsimp only
    rw [scenarioA_detect_nil, List.append_nil]
  have hgen : SynFix.generate_fixes
      (AstAnalyzer.analyze_with_content o t scenarioALine) scenarioALine = [] := by
    unfold SynFix.generate_fixes
    have hfm : (((AstAnalyzer.analyze_with_content o t scenarioALine).syntax_errors.filter
        (fun e => e.source = "ast")).filterMap
        (fun e => SynFix.generate_fix_for_error e (PyStr.splitLines scenarioALine))) = [] := by
      rw [List.filterMap_eq_nil_iff]
      intro e he
      rw [List.mem_filter] at he
      obtain ⟨hmem, hsrc⟩ := he
      have hsrc' : e.source = "ast" := by simpa using hsrc
      rw [herrs] at hmem
      rcases h e hmem with hne | hcode
      · exact absurd hsrc' hne
      · rw [scenarioA_splitLines]
        unfold SynFix.generate_fix_for_error
        by_cases hlt : ([scenarioALine]).length < e.line
        · rw [if_pos hlt]
        · rw [if_neg hlt]
          simp only []
          have hline : (if e.line = 0 then ([scenarioALine]).getLastD []
              else ([scenarioALine]).getD (e.line - 1) []) = scenarioALine := by
            by_cases h0 : e.line = 0
            · simp [h0]
            · have h1 : e.line - 1 = 0 := by
                simp only [List.length_singleton] at hlt
                omega
              simp [h0, h1]
          rw [hline, hcode]
          rw [if_neg (by decide), if_neg (by decide), if_neg (by decide),
            if_pos (by decide)]
          exact scenarioA_general_none e.line
    simp only []
    rw [hfm]
    rfl
  refine ⟨scenarioA_detect_nil, scenarioA_incomplete_none, hgen, ?_, ?_⟩
  · unfold SynFix.fix_content
    rw [hgen]
    rfl
  · unfold SynFix.fix_content
    rw [hgen]
    rfl

/-- **C1.** Closed evaluation at the failing input: on the exact Scenario A
line the detector emits no diagnostic, the incomplete-call handler emits no
fix at any line number, and the full generate/apply pass (here after a
failed external parse, whose only diagnostic is the synthetic
`PARSE_FAILED`) applies zero edits and leaves the text unchanged — instead
of the one `call_completion` edit the specification requires. -/
theorem scenarioA_pipeline_produces_no_edit :
    AstAnalyzer.detect_specific_errors scenarioALine = [] ∧
    (∀ n, SynFix.fix_incomplete_call scenarioALine n = none) ∧
    SynFix.generate_fixes
      (AstAnalyzer.analyze_with_content ParseOutcome.timeoutExpired 0 scenarioALine)
      scenarioALine = [] ∧
    (SynFix.fix_content
      (AstAnalyzer.analyze_with_content ParseOutcome.timeoutExpired 0 scenarioALine)
      scenarioALine).fixed_content = scenarioALine ∧
    (SynFix.fix_content
      (AstAnalyzer.analyze_with_content ParseOutcome.timeoutExpired 0 scenarioALine)
      scenarioALine).fixes_applied = [] :=
  scenarioA_no_fix_general ParseOutcome.timeoutExpired 0 (by decide)

/-- The aggregate-confidence formula exactly as the specification words it:
start at 0.9, −0.2 on manual review, −0.1 per remaining error, −0.05 once
total edits > 5 AND an additional −0.1 once total edits > 10, +0.1 on final
validity, clamped to [0,1]. -/
def specAggregateConfidence (manual_review : Bool) (remaining total_edits : Nat)
    (final_valid : Bool) : ℚ :=
  max 0 (min 1 (9/10 - (if manual_review then 2/10 else 0)
    - (1/10) * remaining
    - (if 5 < total_edits then 5/100 else 0)
    - (if 10 < total_edits then 1/10 else 0)
    + (if final_valid then 1/10 else 0)))

/-- The deduction structure the code actually implements: the two edit-count
deductions are mutually exclusive (`elif` in `_calculate_confidence`). -/
def codeAggregateConfidence (manual_review : Bool) (remaining total_edits : Nat)
    (final_valid : Bool) : ℚ :=
  max 0 (min 1 (9/10 - (if manual_review then 2/10 else 0)
    - (1/10) * remaining
    + (if final_valid then 1/10 else 0)
    - (if 10 < total_edits then 1/10
       else if 5 < total_edits then 5/100 else 0)))

/-- The final-validity flag the orchestrator tests
(`if ast_analysis and ast_analysis.is_valid`). -/
def astValid (a : Option ASTAnalysis) : Bool :=
  match a with
  | some x => x.is_valid
  | none => false

/-- **C2 counterexample.** With 11 edits and nothing else, the code deducts
only 0.1 (result 0.8) while the claimed formula deducts 0.05 + 0.1
(result 0.75). -/
theorem aggregate_confidence_elif_counterexample :
    NextGen.calculate_confidence [] [] (List.replicate 11 "f") none false [] = 4/5 ∧
    specAggregateConfidence false 0 11 false = 3/4 ∧
    NextGen.calculate_confidence [] [] (List.replicate 11 "f") none false [] ≠
      specAggregateConfidence false 0 11 false := by
  have h1 : NextGen.calculate_confidence [] [] (List.replicate 11 "f") none false []
      = 4/5 := by
    unfold NextGen.calculate_confidence
    rw [if_neg (show ¬(List.replicate 11 "f" = ([] : List String)) by decide)]
    simp only []
    rw [if_pos (show 10 < (List.replicate 11 "f").length by decide)]
    norm_num [min_def, max_def]
  have h2 : specAggregateConfidence false 0 11 false = 3/4 := by
    unfold specAggregateConfidence
    norm_num [min_def, max_def]
  refine ⟨h1, h2, ?_⟩
  rw [h1, h2]
  norm_num

/-- **C2 (amended).** For a non-empty fix list the orchestrator's aggregate
confidence equals the clamp to [0,1] of 0.9 − 0.2·[manual review] −
0.1·(remaining errors) + 0.1·[final validity] minus a single edit-count
deduction (0.1 if edits > 10, else 0.05 if edits > 5); and for every input
the result lies in [0,1]. -/
theorem aggregate_confidence_amended (original fixed : List Char)
    (fixes : List String) (ast : Option ASTAnalysis) (manual : Bool)
    (errors : List String) :
    (fixes ≠ [] →
      NextGen.calculate_confidence original fixed fixes ast manual errors =
        codeAggregateConfidence manual errors.length fixes.length (astValid ast)) ∧
    0 ≤ NextGen.calculate_confidence original fixed fixes ast manual errors ∧
    NextGen.calculate_confidence original fixed fixes ast manual errors ≤ 1 := by
  unfold NextGen.calculate_confidence codeAggregateConfidence astValid
  refine ⟨?_, ?_, ?_⟩
  · intro hne
    rw [if_neg hne]
    simp only []
    congr 1
    congr 1
    have herr : ∀ X : ℚ,
        (if errors ≠ [] then X - (1/10) * errors.length else X) =
          X - (1/10) * errors.length := by
      intro X
      by_cases he : errors = []
      · simp [he]
      · simp [he]
    rw [herr]
    rcases ast with _ | a
    · simp only []
      split_ifs <;> first | contradiction | ring
    · simp only []
      split_ifs <;> first | contradiction | ring
  · by_cases hf : fixes = []
    · rw [if_pos hf]
      split_ifs <;> norm_num
    · rw [if_neg hf]
      exact le_max_left _ _
  · by_cases hf : fixes = []
    · rw [if_pos hf]
      split_ifs <;> norm_num
    · rw [if_neg hf]
      exact max_le (by norm_num) (min_le_left _ _)

/-- Witness for C2 (amended) at a one-fix input. -/
theorem aggregate_confidence_amended_witness :
    (["f"] : List String) ≠ [] ∧
    NextGen.calculate_confidence [] [] ["f"] none false [] =
      codeAggregateConfidence false 0 1 (astValid none) ∧
    0 ≤ NextGen.calculate_confidence [] [] ["f"] none false [] ∧
    NextGen.calculate_confidence [] [] ["f"] none false [] ≤ 1 := by
  have h := aggregate_confidence_amended [] [] ["f"] none false []
  exact ⟨by decide, h.1 (by decide), h.2.1, h.2.2⟩

/-- A missing-member (TS2339) diagnostic naming a screen query. -/
def screenQueryDiag : TypeDiagnostic :=
  ⟨1, 12, "Property 'getByText' does not exist on type 'Screen'.".toList,
   "error", 2339, "error", "test.tsx"⟩

/-- A line that already contains an unsafe cast and a screen query. -/
def screenQueryCastLine : List Char :=
  "const el = screen.getByText('x') as any;".toList

/-- **C6 counterexample.** A missing-member diagnostic on a line that already
contains `as any` can still produce an edit: the screen-query branch of
`_fix_property_not_exist` does not test for the cast and emits an
`import_fix` edit. -/
theorem double_cast_guard_counterexample :
    PyStr.containsSeq ("as any".toList) screenQueryCastLine = true ∧
    (TypeFixGen.fix_property_not_exist screenQueryDiag screenQueryCastLine).isSome
      = true := by
  exact ⟨by decide, by decide⟩

/-- **C6 (amended).** For a missing-member diagnostic whose target line
already contains `as any`, any edit `_fix_property_not_exist` emits leaves
the line unchanged (`new_text = old_text`; it is the no-op screen-query
`import_fix` hint) — so no second cast is ever inserted; the
mock-property branch emits no edit at all. -/
theorem double_cast_guard (diag : TypeDiagnostic) (line : List Char)
    (f : TypeFix)
    (hc : PyStr.containsSeq ("as any".toList) line = true)
    (hf : TypeFixGen.fix_property_not_exist diag line = some f) :
    f.new_text = f.old_text ∧ f.fix_type = "import_fix" := by
  unfold TypeFixGen.fix_property_not_exist at hf
  rcases hprop : TypeFixGen.searchPropertyNotExist diag.message with _ | prop
  · rw [hprop] at hf
    exact absurd hf (by simp)
  · rw [hprop] at hf
    dsimp only at hf
    by_cases hmock : PyStr.containsSeq ("mockReturnValue".toList) line = true ∨
        PyStr.containsSeq ("mockImplementation".toList) line = true
    · rw [if_pos hmock] at hf
      rw [if_neg (not_not_intro hc)] at hf
      exact absurd hf (by simp)
    · rw [if_neg hmock] at hf
      by_cases hscreen : PyStr.containsSeq ("screen.".toList) line = true ∧
          (("getBy".toList).isPrefixOf prop) = true
      · rw [if_pos hscreen] at hf
        by_cases hq : prop ∈ TypeFixGen.validScreenQueries
        · rw [if_pos hq] at hf
          obtain ⟨rfl⟩ := Option.some.injEq _ _ ▸ hf
          exact ⟨rfl, rfl⟩
        · rw [if_neg hq] at hf
          exact absurd hf (by simp)
      · rw [if_neg hscreen] at hf
        exact absurd hf (by simp)

/-- Witness for C6 (amended) at the screen-query line. -/
theorem double_cast_guard_witness :
    PyStr.containsSeq ("as any".toList) screenQueryCastLine = true ∧
    ∃ f, TypeFixGen.fix_property_not_exist screenQueryDiag screenQueryCastLine
        = some f ∧ f.new_text = f.old_text ∧ f.fix_type = "import_fix" := by
  refine ⟨by decide, ?_⟩
  rcases hf : TypeFixGen.fix_property_not_exist screenQueryDiag screenQueryCastLine
    with _ | f
  · exact absurd hf (by decide)
  · exact ⟨f, rfl,
      double_cast_guard screenQueryDiag screenQueryCastLine f (by decide) hf⟩

theorem applyLoop_length (fixes : List SyntaxFix) (lines : List (List Char))
    (acc : List SyntaxFix) :
    (SynFix.applyLoop fixes (lines, acc)).1.length = lines.length := by
  induction fixes generalizing lines acc with
  | nil => rfl
  | cons f fs ih =>
    simp only [SynFix.applyLoop]
    by_cases h : f.line ≤ lines.length
    · rw [if_pos h, ih, List.length_set]
    · rw [if_neg h, ih]

theorem applyLoop_applied (fixes : List SyntaxFix) (lines : List (List Char))
    (acc : List SyntaxFix) :
    (SynFix.applyLoop fixes (lines, acc)).2 =
      acc ++ fixes.filter (fun f => f.line ≤ lines.length) := by
  induction fixes generalizing lines acc with
  | nil => simp [SynFix.applyLoop]
  | cons f fs ih =>
    simp only [SynFix.applyLoop]
    by_cases h : f.line ≤ lines.length
    · rw [if_pos h, ih]
      simp [List.length_set, List.filter_cons, h]
    · rw [if_neg h, ih]
      simp [List.filter_cons, h]

theorem applyLoop_fst_filter (fixes : List SyntaxFix) (lines : List (List Char))
    (acc acc' : List SyntaxFix) :
    (SynFix.applyLoop fixes (lines, acc)).1 =
      (SynFix.applyLoop (fixes.filter (fun f => f.line ≤ lines.length))
        (lines, acc')).1 := by
  induction fixes generalizing lines acc acc' with
  | nil => simp [SynFix.applyLoop]
  | cons f fs ih =>
    by_cases h : f.line ≤ lines.length
    · have hfc : (f :: fs).filter (fun f => f.line ≤ lines.length) =
          f :: fs.filter (fun f => f.line ≤ lines.length) := by
        simp [List.filter_cons, h]
      rw [hfc]
      simp only [SynFix.applyLoop]
      rw [if_pos h, if_pos h]
      have := ih (lines.set (if f.line = 0 then lines.length - 1 else f.line - 1)
        f.new_text) (acc ++ [f]) (acc' ++ [f])
      rw [List.length_set] at this
      exact this
    · have hfc : (f :: fs).filter (fun f => f.line ≤ lines.length) =
          fs.filter (fun f => f.line ≤ lines.length) := by
        simp [List.filter_cons, h]
      rw [hfc]
      simp only [SynFix.applyLoop]
      rw [if_neg h]
      exact ih lines acc acc'

theorem applyLoop_no_newline (fixes : List SyntaxFix) (lines : List (List Char))
    (acc : List SyntaxFix) (hl : ∀ l ∈ lines, '\n' ∉ l)
    (hf : ∀ f ∈ fixes, '\n' ∉ f.new_text) :
    ∀ l ∈ (SynFix.applyLoop fixes (lines, acc)).1, '\n' ∉ l := by
  induction fixes generalizing lines acc with
  | nil => simpa [SynFix.applyLoop] using hl
  | cons f fs ih =>
    simp only [SynFix.applyLoop]
    by_cases h : f.line ≤ lines.length
    · rw [if_pos h]
      refine ih _ _ ?_ ?_
      · intro l hmem
        rcases List.mem_or_eq_of_mem_set hmem with hmem' | rfl
        · exact hl l hmem'
        · exact hf f (List.mem_cons_self _ _)
      · exact fun g hg => hf g (List.mem_cons_of_mem _ hg)
    · rw [if_neg h]
      exact ih lines acc hl (fun g hg => hf g (List.mem_cons_of_mem _ hg))

/-- A structural-origin edit targeting line 1. -/
def sameLineFixA : SyntaxFix :=
  ⟨1, 1, "a".toList, "X".toList, "edit A", 1, "parentheses"⟩

/-- A type-origin edit targeting the same line 1. -/
def sameLineFixB : SyntaxFix :=
  ⟨1, 1, "a".toList, "Y".toList, "edit B", 0, "type_assertion"⟩

/-- **C3 counterexample.** Two edits on the same line are BOTH applied —
`fixes_applied` reports both, nothing is recorded as discarded, and the text
ends up as the later edit's replacement (no priority is consulted; the
`SyntaxFix` record has no origin/priority field at all). -/
theorem same_line_conflict_counterexample :
    (SynFix.apply_fixes ("a".toList) [sameLineFixA, sameLineFixB]).fixes_applied
      = [sameLineFixA, sameLineFixB] ∧
    (SynFix.apply_fixes ("a".toList) [sameLineFixA, sameLineFixB]).fixed_content
      = "Y".toList := by
  exact ⟨by decide, by decide⟩

/-- **C3 (amended).** For every content and pair of same-line in-bounds
edits, the applier applies both in sequence: both are recorded in
`fixes_applied` (none is discarded or recorded as such), and the target line
ends up holding the second edit's text. -/
theorem same_line_edits_both_applied (content : List Char) (f g : SyntaxFix)
    (hl : g.line = f.line) (h1 : 1 ≤ f.line)
    (h2 : f.line ≤ (PyStr.splitLines content).length) :
    (SynFix.apply_fixes content [f, g]).fixes_applied = [f, g] ∧
    (SynFix.applyLoop [f, g] (PyStr.splitLines content, [])).1 =
      (PyStr.splitLines content).set (f.line - 1) g.new_text := by
  have h2g : g.line ≤ (PyStr.splitLines content).length := hl ▸ h2
  constructor
  · unfold SynFix.apply_fixes
    rw [if_neg (by simp)]
    simp only []
    rw [applyLoop_applied]
    simp [List.filter_cons, h2, h2g]
  · simp only [SynFix.applyLoop]
    rw [if_pos h2]
    rw [if_neg (by omega : ¬ f.line = 0)]
    rw [if_pos (by rw [List.length_set]; exact h2g)]
    rw [if_neg (by omega : ¬ g.line = 0)]
    simp only [SynFix.applyLoop]
    rw [hl, List.set_set]

/-- An edit whose target line 2 does not exist in a one-line text. -/
def staleFixA : SyntaxFix := ⟨2, 1, [], "X".toList, "stale A", 1, "parentheses"⟩

/-- A second stale edit, targeting line 3. -/
def staleFixB : SyntaxFix := ⟨3, 1, [], "Y".toList, "stale B", 1, "parentheses"⟩

/-- **C4 counterexample.** On a one-line text, a patch set with one stale
edit and one with two stale edits produce *identical* results — so no field
of the result counts stale edits; they are dropped but not recorded. -/
theorem stale_edit_not_counted_counterexample :
    SynFix.apply_fixes ("a".toList) [staleFixA] =
      SynFix.apply_fixes ("a".toList) [staleFixA, staleFixB] ∧
    (SynFix.apply_fixes ("a".toList) [staleFixA]).fixes_applied = [] ∧
    (SynFix.apply_fixes ("a".toList) [staleFixA]).fixed_content = "a".toList := by
  exact ⟨by decide, by decide, by decide⟩

/-- **C4 (amended).** An edit whose target line exceeds the current number of
lines is silently dropped: it is never among the applied fixes, and the
resulting text is exactly the text produced by the in-bounds edits alone —
but nothing in the result records or counts it. -/
theorem stale_edits_silently_dropped (content : List Char)
    (fixes : List SyntaxFix) :
    (SynFix.apply_fixes content fixes).fixes_applied =
      fixes.filter (fun f => f.line ≤ (PyStr.splitLines content).length) ∧
    (SynFix.applyLoop fixes (PyStr.splitLines content, [])).1 =
      (SynFix.applyLoop
        (fixes.filter (fun f => f.line ≤ (PyStr.splitLines content).length))
        (PyStr.splitLines content, [])).1 := by
  constructor
  · unfold SynFix.apply_fixes
    by_cases hf : fixes = []
    · rw [if_pos hf]
      simp [hf]
    · rw [if_neg hf]
      simp only []
      rw [applyLoop_applied]
      simp
  · exact applyLoop_fst_filter fixes (PyStr.splitLines content) [] []

/-- An edit whose replacement text contains a line terminator. -/
def newlineFix : SyntaxFix :=
  ⟨1, 1, "a".toList, ('x' :: '\n' :: ['y']), "newline edit", 1, "parentheses"⟩

/-- **C10 counterexample.** An edit whose `new_text` contains `'\n'` makes
the applied text one line longer: 1-line input, 2-line output. -/
theorem line_count_counterexample :
    (PyStr.splitLines
      (SynFix.apply_fixes ("a".toList) [newlineFix]).fixed_content).length = 2 ∧
    (PyStr.splitLines ("a".toList)).length = 1 := by
  exact ⟨by decide, by decide⟩

/-- **C10 (amended).** Provided no edit's replacement text contains a line
terminator (true of every fix the generator emits), the applier preserves
the number of lines exactly: every applied edit is a whole-line
replacement and no edit inserts or deletes a line. -/
theorem apply_fixes_preserves_line_count (content : List Char)
    (fixes : List SyntaxFix) (h : ∀ f ∈ fixes, '\n' ∉ f.new_text) :
    (PyStr.splitLines (SynFix.apply_fixes content fixes).fixed_content).length =
      (PyStr.splitLines content).length := by
  unfold SynFix.apply_fixes
  by_cases hf : fixes = []
  · rw [if_pos hf]
  · rw [if_neg hf]
    simp only []
    have hlen : (SynFix.applyLoop fixes (PyStr.splitLines content, [])).1.length =
        (PyStr.splitLines content).length :=
      applyLoop_length fixes (PyStr.splitLines content) []
    have hne : (SynFix.applyLoop fixes (PyStr.splitLines content, [])).1 ≠ [] := by
      intro h0
      rw [h0] at hlen
      exact (PyStr.splitLines_ne_nil content)
        (List.length_eq_zero.mp hlen.symm)
    have hnl : ∀ l ∈ (SynFix.applyLoop fixes (PyStr.splitLines content, [])).1,
        '\n' ∉ l :=
      applyLoop_no_newline fixes (PyStr.splitLines content) []
        (PyStr.no_newline_mem_splitLines content) h
    rw [PyStr.splitLines_joinLines _ hne hnl, hlen]

/-- Witness for C10 (amended) at a concrete two-line content. -/
theorem apply_fixes_preserves_line_count_witness :
    (∀ f ∈ [sameLineFixA], '\n' ∉ f.new_text) ∧
    (PyStr.splitLines
        (SynFix.apply_fixes ("a\nb".toList) [sameLineFixA]).fixed_content).length =
      (PyStr.splitLines ("a\nb".toList)).length :=
  ⟨by decide, apply_fixes_preserves_line_count ("a\nb".toList) [sameLineFixA]
    (by decide)⟩

/-- Witness for C3 (amended) at a concrete one-line content. -/
theorem same_line_edits_both_applied_witness :
    sameLineFixB.line = sameLineFixA.line ∧ 1 ≤ sameLineFixA.line ∧
    sameLineFixA.line ≤ (PyStr.splitLines ("a".toList)).length ∧
    ((SynFix.apply_fixes ("a".toList) [sameLineFixA, sameLineFixB]).fixes_applied
        = [sameLineFixA, sameLineFixB] ∧
      (SynFix.applyLoop [sameLineFixA, sameLineFixB]
          (PyStr.splitLines ("a".toList), [])).1 =
        (PyStr.splitLines ("a".toList)).set (sameLineFixA.line - 1)
          sameLineFixB.new_text) :=
  ⟨by decide, by decide, by decide,
   same_line_edits_both_applied ("a".toList) sameLineFixA sameLineFixB
     (by decide) (by decide) (by decide)⟩

theorem geScore_iff (a b : ContextualFix) :
    MLContext.geScore a b = true ↔
      MLContext.combinedScore b ≤ MLContext.combinedScore a := by
  simp [MLContext.geScore]

theorem mem_insertDescBy {α : Type} (ge : α → α → Bool) (x : α) (l : List α)
    (z : α) : z ∈ SynFix.insertDescBy ge x l ↔ z = x ∨ z ∈ l := by
  induction l with
  | nil => simp [SynFix.insertDescBy]
  | cons y ys ih =>
    simp only [SynFix.insertDescBy]
    by_cases h : ge y x = true
    · rw [if_pos h]
      simp [ih]
      tauto
    · rw [if_neg h]
      simp

theorem insertDescBy_pairwise (x : ContextualFix) (l : List ContextualFix)
    (hs : l.Pairwise (fun a b =>
      MLContext.combinedScore b ≤ MLContext.combinedScore a)) :
    (SynFix.insertDescBy MLContext.geScore x l).Pairwise (fun a b =>
      MLContext.combinedScore b ≤ MLContext.combinedScore a) := by
  induction l with
  | nil => simp [SynFix.insertDescBy]
  | cons y ys ih =>
    rw [List.pairwise_cons] at hs
    obtain ⟨hy, hys⟩ := hs
    simp only [SynFix.insertDescBy]
    by_cases h : MLContext.geScore y x = true
    · rw [if_pos h]
      rw [List.pairwise_cons]
      refine ⟨?_, ih hys⟩
      intro z hz
      rcases (mem_insertDescBy _ _ _ _).1 hz with rfl | hz'
      · exact (geScore_iff y z).1 h
      · exact hy z hz'
    · rw [if_neg h]
      have hxy : MLContext.combinedScore y ≤ MLContext.combinedScore x := by
        have := (geScore_iff y x).not.1 h
        push_neg at this
        exact this.le
      rw [List.pairwise_cons]
      refine ⟨?_, List.pairwise_cons.2 ⟨hy, hys⟩⟩
      intro z hz
      rcases List.mem_cons.1 hz with rfl | hz'
      · exact hxy
      · exact (hy z hz').trans hxy

theorem insertDescBy_filter_key_eq (x : ContextualFix) (l : List ContextualFix)
    (q : ℚ)
    (hs : l.Pairwise (fun a b =>
      MLContext.combinedScore b ≤ MLContext.combinedScore a))
    (hx : MLContext.combinedScore x = q) :
    (SynFix.insertDescBy MLContext.geScore x l).filter
        (fun y => decide (MLContext.combinedScore y = q)) =
      l.filter (fun y => decide (MLContext.combinedScore y = q)) ++ [x] := by
  induction l with
  | nil => simp [SynFix.insertDescBy, hx]
  | cons y ys ih =>
    rw [List.pairwise_cons] at hs
    obtain ⟨hy, hys⟩ := hs
    simp only [SynFix.insertDescBy]
    by_cases h : MLContext.geScore y x = true
    · rw [if_pos h]
      by_cases hyq : MLContext.combinedScore y = q
      · simp only [List.filter_cons, hyq]
        simp only [decide_true_eq_true]
        rw [ih hys]
        simp
      · simp only [List.filter_cons]
        rw [if_neg (by simp [hyq]), if_neg (by simp [hyq]), ih hys]
    · rw [if_neg h]
      have hxy : MLContext.combinedScore y < MLContext.combinedScore x := by
        have := (geScore_iff y x).not.1 h
        push_neg at this
        exact this
      have hnil : (y :: ys).filter
          (fun z => decide (MLContext.combinedScore z = q)) = [] := by
        rw [List.filter_eq_nil_iff]
        intro z hz
        have hzy : MLContext.combinedScore z ≤ MLContext.combinedScore y := by
          rcases List.mem_cons.1 hz with rfl | hz'
          · exact le_refl _
          · exact hy z hz'
        simp only [decide_eq_true_eq]
        intro hzq
        rw [hx] at hxy
        exact absurd (hzq ▸ hzy) (not_le.mpr hxy)
      rw [List.filter_cons, if_pos (by simp [hx]), hnil]
      simp

theorem insertDescBy_filter_key_ne (x : ContextualFix) (l : List ContextualFix)
    (q : ℚ) (hx : MLContext.combinedScore x ≠ q) :
    (SynFix.insertDescBy MLContext.geScore x l).filter
        (fun y => decide (MLContext.combinedScore y = q)) =
      l.filter (fun y => decide (MLContext.combinedScore y = q)) := by
  induction l with
  | nil => simp [SynFix.insertDescBy, hx]
  | cons y ys ih =>
    simp only [SynFix.insertDescBy]
    by_cases h : MLContext.geScore y x = true
    · rw [if_pos h]
      simp only [List.filter_cons]
      rw [ih]
    · rw [if_neg h]
      rw [List.filter_cons, if_neg (by simp [hx])]

theorem stableSort_spec (l acc : List ContextualFix)
    (hs : acc.Pairwise (fun a b =>
      MLContext.combinedScore b ≤ MLContext.combinedScore a)) :
    (List.foldl (fun a x => SynFix.insertDescBy MLContext.geScore x a) acc
        l).Pairwise (fun a b =>
          MLContext.combinedScore b ≤ MLContext.combinedScore a) ∧
    ∀ q : ℚ,
      (List.foldl (fun a x => SynFix.insertDescBy MLContext.geScore x a) acc
          l).filter (fun y => decide (MLContext.combinedScore y = q)) =
        acc.filter (fun y => decide (MLContext.combinedScore y = q)) ++
          l.filter (fun y => decide (MLContext.combinedScore y = q)) := by
  induction l generalizing acc with
  | nil => exact ⟨hs, fun q => by simp⟩
  | cons x xs ih =>
    have hacc' := insertDescBy_pairwise x acc hs
    obtain ⟨hp, hfilt⟩ := ih (SynFix.insertDescBy MLContext.geScore x acc) hacc'
    refine ⟨hp, fun q => ?_⟩
    rw [List.foldl_cons, hfilt q]
    by_cases hq : MLContext.combinedScore x = q
    · rw [insertDescBy_filter_key_eq x acc q hs hq]
      rw [List.filter_cons, if_pos (by simp [hq])]
      simp
    · rw [insertDescBy_filter_key_ne x acc q hq]
      rw [List.filter_cons, if_neg (by simp [hq])]

/-- **C7.** `suggest_contextual_fixes` returns the candidates sorted in
descending order of `0.7·confidence + 0.3·context_match`, and candidates of
equal combined score keep their discovery order: for each score value `q`
the sub-list of score-`q` candidates in the output equals the sub-list of
score-`q` candidates of the input (built in discovery order) — Python's
`list.sort(..., reverse=True)` is stable. -/
theorem contextual_ranking_stable_desc {α : Type} (build : α → ContextualFix)
    (available : List α) :
    (MLContext.suggest_contextual_fixes build available).Pairwise
      (fun a b => MLContext.combinedScore b ≤ MLContext.combinedScore a) ∧
    ∀ q : ℚ,
      (MLContext.suggest_contextual_fixes build available).filter
          (fun y => decide (MLContext.combinedScore y = q)) =
        (available.map build).filter
          (fun y => decide (MLContext.combinedScore y = q)) := by
  unfold MLContext.suggest_contextual_fixes SynFix.stableSortDescBy
  have h := stableSort_spec (available.map build) [] (by simp)
  exact ⟨h.1, fun q => by simpa using h.2 q⟩

theorem count_dropWhile_of_not (p : Char → Bool) (c : Char) (h : p c = false)
    (l : List Char) : (l.dropWhile p).count c = l.count c := by
  induction l with
  | nil => rfl
  | cons a as ih =>
    rw [List.dropWhile_cons]
    by_cases ha : p a = true
    · have hac : a ≠ c := by
        intro he
        rw [he, h] at ha
        cases ha
      rw [if_pos ha, ih, List.count_cons]
      simp [hac]
    · rw [if_neg ha]

theorem count_rstrip (c : Char) (h : PyStr.pySpace c = false) (s : List Char) :
    (PyStr.rstrip s).count c = s.count c := by
  unfold PyStr.rstrip
  rw [List.count_reverse, count_dropWhile_of_not _ _ h, List.count_reverse]

theorem count_removeFirstChar_self (c : Char) (s : List Char) (h : c ∈ s) :
    (PyStr.removeFirstChar c s).count c + 1 = s.count c := by
  induction s with
  | nil => cases h
  | cons a as ih =>
    by_cases hac : a = c
    · subst hac
      simp [PyStr.removeFirstChar, List.count_cons]
    · have h' : c ∈ as := by
        rcases List.mem_cons.1 h with rfl | h'
        · exact absurd rfl hac
        · exact h'
      simp only [PyStr.removeFirstChar, if_neg hac]
      rw [List.count_cons, List.count_cons]
      simp only [Nat.add_right_comm]
      rw [ih h']

theorem count_removeFirstChar_other (c d : Char) (hdc : d ≠ c) (s : List Char) :
    (PyStr.removeFirstChar c s).count d = s.count d := by
  induction s with
  | nil => rfl
  | cons a as ih =>
    by_cases hac : a = c
    · subst hac
      simp only [PyStr.removeFirstChar, if_pos rfl]
      rw [List.count_cons]
      simp [Ne.symm hdc]
    · simp only [PyStr.removeFirstChar, if_neg hac]
      rw [List.count_cons, List.count_cons, ih]

theorem count_removeLastChar_self (c : Char) (s : List Char) (h : c ∈ s) :
    (PyStr.removeLastChar c s).count c + 1 = s.count c := by
  unfold PyStr.removeLastChar
  rw [List.count_reverse]
  have := count_removeFirstChar_self c s.reverse (List.mem_reverse.mpr h)
  rwa [List.count_reverse] at this

theorem count_removeLastChar_other (c d : Char) (hdc : d ≠ c) (s : List Char) :
    (PyStr.removeLastChar c s).count d = s.count d := by
  unfold PyStr.removeLastChar
  rw [List.count_reverse, count_removeFirstChar_other c d hdc, List.count_reverse]

theorem count_removeLastIter_self (c : Char) (k : Nat) (s : List Char)
    (h : k ≤ s.count c) :
    (PyStr.removeLastIter c k s).count c + k = s.count c := by
  induction k generalizing s with
  | zero => simp [PyStr.removeLastIter]
  | succ n ih =>
    have hmem : c ∈ s := by
      have : 0 < s.count c := by omega
      exact List.count_pos_iff.mp this
    have h1 := count_removeLastChar_self c s hmem
    have h2 : n ≤ (PyStr.removeLastChar c s).count c := by omega
    have h3 := ih (PyStr.removeLastChar c s) h2
    simp only [PyStr.removeLastIter]
    omega

theorem count_removeLastIter_other (c d : Char) (hdc : d ≠ c) (k : Nat)
    (s : List Char) :
    (PyStr.removeLastIter c k s).count d = s.count d := by
  induction k generalizing s with
  | zero => simp [PyStr.removeLastIter]
  | succ n ih =>
    simp only [PyStr.removeLastIter]
    rw [ih, count_removeLastChar_other c d hdc]

/-- **C8.** For a paren-count-mismatched line: when opening parens exceed
closing ones, the handler emits an edit of confidence exactly 0.9 that
inserts the missing closing parens before the trailing `;` (at the stripped
end when there is none); when closing parens exceed opening ones, it emits
an edit of confidence exactly 0.72 = 0.9·0.8 that removes the excess
closing parens from the end (repeated `rfind`-removal).  In both cases the
replacement line has balanced paren counts. -/
theorem unmatched_paren_fix (line : List Char) (n : Nat) :
    (line.count ')' < line.count '(' →
      ∃ f, SynFix.fix_unmatched_parentheses line n = some f ∧
        f.confidence = 9/10 ∧ f.fix_type = "parentheses" ∧
        f.new_text =
          (if ([';']).isSuffixOf (PyStr.rstrip line) then
            (PyStr.rstrip line).dropLast ++
              List.replicate (line.count '(' - line.count ')') ')' ++ [';']
          else PyStr.rstrip line ++
              List.replicate (line.count '(' - line.count ')') ')') ∧
        f.new_text.count '(' = f.new_text.count ')') ∧
    (line.count '(' < line.count ')' →
      ∃ f, SynFix.fix_unmatched_parentheses line n = some f ∧
        f.confidence = 72/100 ∧ f.fix_type = "parentheses" ∧
        f.new_text = PyStr.rstrip
          (PyStr.removeLastIter ')' (line.count ')' - line.count '(') line) ∧
        f.new_text.count '(' = f.new_text.count ')') := by
  have hR1 : (PyStr.rstrip line).count '(' = line.count '(' :=
    count_rstrip '(' (by decide) line
  have hR2 : (PyStr.rstrip line).count ')' = line.count ')' :=
    count_rstrip ')' (by decide) line
  constructor
  · intro h
    unfold SynFix.fix_unmatched_parentheses
    simp only []
    rw [if_pos h]
    refine ⟨_, rfl, rfl, rfl, rfl, ?_⟩
    by_cases hs : ([';']).isSuffixOf (PyStr.rstrip line) = true
    · rw [if_pos hs]
      obtain ⟨t, ht⟩ := List.isSuffixOf_iff_suffix.mp hs
      have ht1 : t.count '(' = line.count '(' := by
        have := hR1
        rw [← ht] at this
        simpa using this
      have ht2 : t.count ')' = line.count ')' := by
        have := hR2
        rw [← ht] at this
        simpa using this
      rw [← ht, List.dropLast_concat]
      simp only [List.count_append, List.count_replicate, List.count_cons,
        List.count_nil]
      simp +decide only [if_true, if_false]
      omega
    · rw [if_neg hs]
      simp only [List.count_append, List.count_replicate]
      simp +decide only [if_true, if_false, hR1, hR2]
      omega
  · intro h
    unfold SynFix.fix_unmatched_parentheses
    simp only []
    rw [if_neg (by omega : ¬ line.count ')' < line.count '('), if_pos h]
    refine ⟨_, rfl, ?_, rfl, rfl, ?_⟩
    · norm_num [SynFix.unmatchedParenPattern]
    · have h1 : (PyStr.removeLastIter ')' (line.count ')' - line.count '(')
          line).count ')' + (line.count ')' - line.count '(') =
          line.count ')' :=
        count_removeLastIter_self ')' _ line (by omega)
      have h2 : (PyStr.removeLastIter ')' (line.count ')' - line.count '(')
          line).count '(' = line.count '(' :=
        count_removeLastIter_other ')' '(' (by decide) _ line
      rw [count_rstrip '(' (by decide), count_rstrip ')' (by decide)]
      omega

/-- A line with more opening than closing parens, ending in `;`. -/
def plusParenLine : List Char := "f((x);".toList

/-- A line with more closing than opening parens. -/
def minusParenLine : List Char := "f(x))".toList

/-- Witness for C8 at concrete inputs for both branches. -/
theorem unmatched_paren_fix_witness :
    (plusParenLine.count ')' < plusParenLine.count '(' ∧
      (∃ f, SynFix.fix_unmatched_parentheses plusParenLine 1 = some f ∧
        f.confidence = 9/10 ∧ f.fix_type = "parentheses" ∧
        f.new_text =
          (if ([';']).isSuffixOf (PyStr.rstrip plusParenLine) then
            (PyStr.rstrip plusParenLine).dropLast ++
              List.replicate (plusParenLine.count '(' -
                plusParenLine.count ')') ')' ++ [';']
          else PyStr.rstrip plusParenLine ++
              List.replicate (plusParenLine.count '(' -
                plusParenLine.count ')') ')') ∧
        f.new_text.count '(' = f.new_text.count ')')) ∧
    (minusParenLine.count '(' < minusParenLine.count ')' ∧
      ∃ f, SynFix.fix_unmatched_parentheses minusParenLine 1 = some f ∧
        f.confidence = 72/100 ∧ f.fix_type = "parentheses" ∧
        f.new_text = PyStr.rstrip
          (PyStr.removeLastIter ')'
            (minusParenLine.count ')' - minusParenLine.count '(')
            minusParenLine) ∧
        f.new_text.count '(' = f.new_text.count ')') :=
  ⟨⟨by decide, (unmatched_paren_fix plusParenLine 1).1 (by decide)⟩,
   by decide, (unmatched_paren_fix minusParenLine 1).2 (by decide)⟩

theorem calc_conf_nonneg (original fixed : List Char) (fixes : List String)
    (ast : Option ASTAnalysis) (manual : Bool) (errors : List String) :
    0 ≤ NextGen.calculate_confidence original fixed fixes ast manual errors := by
  unfold NextGen.calculate_confidence
  by_cases hf : fixes = []
  · rw [if_pos hf]
    split_ifs <;> norm_num
  · rw [if_neg hf]
    exact le_max_left _ _

theorem calc_conf_le_one (original fixed : List Char) (fixes : List String)
    (ast : Option ASTAnalysis) (manual : Bool) (errors : List String) :
    NextGen.calculate_confidence original fixed fixes ast manual errors ≤ 1 := by
  unfold NextGen.calculate_confidence
  by_cases hf : fixes = []
  · rw [if_pos hf]
    split_ifs <;> norm_num
  · rw [if_neg hf]
    exact max_le (by norm_num) (min_le_left _ _)

theorem filesFixed_append_clean (results : List NextGenFixResult)
    (r : NextGenFixResult) (hr : r.success = false) :
    NextGen.filesFixed (results ++ [r]) = NextGen.filesFixed results := by
  unfold NextGen.filesFixed
  rw [List.filter_append]
  simp [List.filter_cons, hr]

theorem totalConfidence_append_clean (results : List NextGenFixResult)
    (r : NextGenFixResult) (hr : r.success = false) :
    NextGen.totalConfidence (results ++ [r]) = NextGen.totalConfidence results := by
  unfold NextGen.totalConfidence
  rw [List.filter_append]
  simp [List.filter_cons, hr]

theorem totalConfidence_nonneg (results : List NextGenFixResult)
    (hconf : ∀ x ∈ results, 0 ≤ x.confidence_score) :
    0 ≤ NextGen.totalConfidence results := by
  unfold NextGen.totalConfidence
  apply List.sum_nonneg
  intro q hq
  rw [List.mem_map] at hq
  obtain ⟨x, hx, rfl⟩ := hq
  exact hconf x (List.mem_filter.1 hx).1

/-- **C9.** A per-file result's success flag is true exactly when at least
one fix was applied (`success = len(all_fixes) > 0`); its confidence lies in
[0,1]; and appending a needs-no-fixes file (zero fixes, hence
`success = false`) to a batch leaves `files_fixed` unchanged while weakly
lowering the reported success rate and average confidence — strictly
lowering the success rate whenever some other file was fixed. -/
theorem process_file_success_iff_fixed
    (analyze : List Char → Option ASTAnalysis)
    (enhanced : List Char → Option EnhancedResult) (fp : String)
    (orig : List Char) (results : List NextGenFixResult) (elapsed : ℚ)
    (hconf : ∀ x ∈ results, 0 ≤ x.confidence_score) :
    ((NextGen.process_file analyze enhanced fp orig).success = true ↔
      0 < (NextGen.process_file analyze enhanced fp orig).total_fixes) ∧
    (0 ≤ (NextGen.process_file analyze enhanced fp orig).confidence_score ∧
      (NextGen.process_file analyze enhanced fp orig).confidence_score ≤ 1) ∧
    ((NextGen.process_file analyze enhanced fp orig).total_fixes = 0 →
      (NextGen.process_file analyze enhanced fp orig).success = false ∧
      (NextGen.process_directory
          (results ++ [NextGen.process_file analyze enhanced fp orig])
          elapsed).files_fixed =
        (NextGen.process_directory results elapsed).files_fixed ∧
      (NextGen.process_directory
          (results ++ [NextGen.process_file analyze enhanced fp orig])
          elapsed).success_rate ≤
        (NextGen.process_directory results elapsed).success_rate ∧
      (NextGen.process_directory
          (results ++ [NextGen.process_file analyze enhanced fp orig])
          elapsed).average_confidence ≤
        (NextGen.process_directory results elapsed).average_confidence ∧
      (0 < NextGen.filesFixed results →
        (NextGen.process_directory
            (results ++ [NextGen.process_file analyze enhanced fp orig])
            elapsed).success_rate <
          (NextGen.process_directory results elapsed).success_rate)) := by
  set r := NextGen.process_file analyze enhanced fp orig with hrdef
  have hsd : r.success = decide (0 < r.total_fixes) := rfl
  have hbounds : 0 ≤ r.confidence_score ∧ r.confidence_score ≤ 1 :=
    ⟨calc_conf_nonneg _ _ _ _ _ _, calc_conf_le_one _ _ _ _ _ _⟩
  refine ⟨by rw [hsd]; simp, hbounds, ?_⟩
  intro h0
  have hs : r.success = false := by
    rw [hsd, h0]
    decide
  have hff := filesFixed_append_clean results r hs
  have htc := totalConfidence_append_clean results r hs
  have hlen : (results ++ [r]).length = results.length + 1 := by
    simp
  refine ⟨hs, ?_, ?_, ?_, ?_⟩
  · unfold NextGen.process_directory
    exact hff
  · unfold NextGen.process_directory
    simp only [hlen, hff]
    rw [if_pos (by omega)]
    by_cases hn : results.length = 0
    · have hres : results = [] := List.length_eq_zero.mp hn
      subst hres
      simp [NextGen.filesFixed]
    · rw [if_pos hn]
      have h1 : (0:ℚ) < results.length := by
        exact_mod_cast Nat.pos_of_ne_zero hn
      have h2 : (0:ℚ) ≤ (NextGen.filesFixed results : ℚ) := by positivity
      rw [div_le_div_iff₀ (by push_cast; linarith) h1]
      push_cast
      nlinarith
  · unfold NextGen.process_directory
    simp only [hlen, htc]
    rw [if_pos (by omega)]
    by_cases hn : results.length = 0
    · have hres : results = [] := List.length_eq_zero.mp hn
      subst hres
      simp [NextGen.totalConfidence]
    · rw [if_pos hn]
      have h1 : (0:ℚ) < results.length := by
        exact_mod_cast Nat.pos_of_ne_zero hn
      have h2 : 0 ≤ NextGen.totalConfidence results :=
        totalConfidence_nonneg results hconf
      rw [div_le_div_iff₀ (by push_cast; linarith) h1]
      push_cast
      nlinarith
  · intro hpos
    unfold NextGen.process_directory
    simp only [hlen, hff]
    have hn : results.length ≠ 0 := by
      intro h
      have hres : results = [] := List.length_eq_zero.mp h
      subst hres
      simp [NextGen.filesFixed] at hpos
    rw [if_pos (by omega), if_pos hn]
    have h1 : (0:ℚ) < results.length := by
      exact_mod_cast Nat.pos_of_ne_zero hn
    have h2 : (0:ℚ) < (NextGen.filesFixed results : ℚ) := by
      exact_mod_cast hpos
    rw [div_lt_div_iff₀ (by push_cast; linarith) h1]
    push_cast
    nlinarith

/-- Witness for C9 with failing oracles (a file that needs and gets no
fixes) appended to an empty batch. -/
theorem process_file_success_iff_fixed_witness :
    (∀ x ∈ ([] : List NextGenFixResult), 0 ≤ x.confidence_score) ∧
    (((NextGen.process_file (fun _ => none) (fun _ => none) "f" []).success = true ↔
      0 < (NextGen.process_file (fun _ => none) (fun _ => none) "f" []).total_fixes) ∧
    (0 ≤ (NextGen.process_file (fun _ => none) (fun _ => none) "f" []).confidence_score ∧
      (NextGen.process_file (fun _ => none) (fun _ => none) "f" []).confidence_score ≤ 1) ∧
    ((NextGen.process_file (fun _ => none) (fun _ => none) "f" []).total_fixes = 0 →
      (NextGen.process_file (fun _ => none) (fun _ => none) "f" []).success = false ∧
      (NextGen.process_directory
          ([] ++ [NextGen.process_file (fun _ => none) (fun _ => none) "f" []])
          0).files_fixed =
        (NextGen.process_directory [] 0).files_fixed ∧
      (NextGen.process_directory
          ([] ++ [NextGen.process_file (fun _ => none) (fun _ => none) "f" []])
          0).success_rate ≤
        (NextGen.process_directory [] 0).success_rate ∧
      (NextGen.process_directory
          ([] ++ [NextGen.process_file (fun _ => none) (fun _ => none) "f" []])
          0).average_confidence ≤
        (NextGen.process_directory [] 0).average_confidence ∧
      (0 < NextGen.filesFixed [] →
        (NextGen.process_directory
            ([] ++ [NextGen.process_file (fun _ => none) (fun _ => none) "f" []])
            0).success_rate <
          (NextGen.process_directory [] 0).success_rate))) :=
  ⟨fun x hx => absurd hx (List.not_mem_nil x),
   process_file_success_iff_fixed (fun _ => none) (fun _ => none) "f" [] [] 0
     (fun x hx => absurd hx (List.not_mem_nil x))⟩
